import Mathlib

/-!
Verification of the `remix.init/index.js` post-generation customizer of the
symphonic-stack repository.

The script is embedded shallowly: strings are lists of characters, JS objects
whose keys matter are association lists, the JS `String.prototype.replace`
variants are modelled by `replaceFirst` (string pattern: first occurrence) and
`replaceAll` (regex with the `g` flag: every occurrence, left to right,
non-overlapping), regexes built by `escapeRegExp` are interpreted back into the
literal they match by `interpEscaped`, and the promise pipeline of `main` is a
pure function from read results to the list of file operations it launches.
-/

set_option autoImplicit false

abbrev Str := List Char

/-- Test whether `pat` is an initial segment of `s`. -/
def startsWith : Str → Str → Bool
  | [], _ => true
  | _ :: _, [] => false
  | c :: cs, d :: ds => c == d && startsWith cs ds

/-- JS `s.replace(pat, repl)` with a STRING pattern: only the first occurrence
of `pat` in `s` is replaced. An empty pattern matches at the start. -/
def replaceFirst (pat repl : Str) : Str → Str
  | [] => if pat.isEmpty then repl else []
  | c :: rest =>
    if startsWith pat (c :: rest) then repl ++ (c :: rest).drop pat.length
    else c :: replaceFirst pat repl rest

/-- JS `s.replace(re, repl)` with a GLOBAL regex matching the literal `pat`:
every occurrence is replaced, scanning left to right without rescanning the
replacement text. (The script only ever builds such regexes from nonempty
literals, so the empty-pattern behaviour is irrelevant here.) -/
def replaceAll (pat repl : Str) : Str → Str
  | [] => []
  | c :: rest =>
    if h : pat ≠ [] ∧ startsWith pat (c :: rest) = true then
      repl ++ replaceAll pat repl ((c :: rest).drop pat.length)
    else
      c :: replaceAll pat repl rest
termination_by s => s.length
decreasing_by
  · have h2 : 0 < pat.length := List.length_pos.mpr h.1
    simp only [List.length_drop, List.length_cons]
    omega
  · simp

/-- Test whether `pat` occurs as a contiguous substring of `s`. -/
def hasSubstr (pat : Str) : Str → Bool
  | [] => pat.isEmpty
  | c :: rest => startsWith pat (c :: rest) || hasSubstr pat rest

/-- Lookup in an association list modelling a JS object (first binding wins;
JS objects have unique keys so the bindings we build are unique anyway). -/
def lookupKey {α : Type} (k : String) : List (String × α) → Option α
  | [] => none
  | (k', v) :: rest => if k' = k then some v else lookupKey k rest

/-- The characters that `escapeRegExp` in the script escapes, i.e. the regex
metacharacters of the character class in its source. -/
def isRegexMeta (c : Char) : Bool :=
  c = '.' || c = '*' || c = '+' || c = '?' || c = '^' || c = '$' ||
  c = '\x7b' || c = '\x7d' || c = '(' || c = ')' || c = '|' ||
  c = '[' || c = ']' || c = '\\'

/-- The script's `escapeRegExp`: prefix every regex metacharacter with a
backslash (JS `string.replace(re, '\\$&')` with a global single-character
class, i.e. a character-wise transformation). -/
def escapeRegExp : Str → Str
  | [] => []
  | c :: cs => (if isRegexMeta c then ['\\', c] else [c]) ++ escapeRegExp cs

/-- Interpretation of a regex source that denotes a literal string: a
backslash escapes the following character, an unescaped metacharacter means
the pattern is not a plain literal (`none`). This is how the JS regex engine
reads the patterns the script builds. -/
def interpEscaped : Str → Option Str
  | [] => some []
  | c :: cs =>
    if c = '\\' then
      match cs with
      | [] => none
      | d :: ds => (interpEscaped ds).map (fun t => d :: t)
    else if isRegexMeta c then none
    else (interpEscaped cs).map (fun t => c :: t)

/-- JS `s.replace(new RegExp(pattern, 'g'), repl)` for the escaped-literal
patterns the script builds: interpret the pattern as the literal it matches
and replace every occurrence. -/
def jsReplaceGlobalRegex (pattern repl s : Str) : Str :=
  match interpEscaped pattern with
  | some lit => replaceAll lit repl s
  | none => s

/-- The placeholder token `REPLACER` of the script. -/
def REPLACER : Str := "symphonic-stack-template".data

/-- The script's `newReadme` computation: replace the escaped placeholder
globally by the application name. -/
def newReadme (readme APP_NAME : Str) : Str :=
  jsReplaceGlobalRegex (escapeRegExp REPLACER) APP_NAME readme

/-- The parsed `fly.toml` document: the `app` field the script touches, plus
the remaining fields, which it leaves alone. -/
structure FlyToml where
  app : Str
  otherFields : List (String × String)
deriving DecidableEq

/-- Lines 146-147 of the script: `prodToml.app = prodToml.app.replace(REPLACER, APP_NAME)`
on the parsed TOML document (string pattern, hence first occurrence). -/
def patchProdToml (t : FlyToml) (APP_NAME : Str) : FlyToml :=
  { t with app := replaceFirst REPLACER APP_NAME t.app }

/-- Hex digit for a nibble, lowercase, as produced by Node's
`Buffer.toString('hex')`. -/
def hexChar (n : Nat) : Char :=
  if n < 10 then Char.ofNat (48 + n) else Char.ofNat (87 + n)

/-- Hex encoding of one byte: two characters. -/
def byteToHex (b : Nat) : Str :=
  [hexChar (b / 16), hexChar (b % 16)]

/-- The script's `getRandomString(length)`, i.e.
`crypto.randomBytes(length).toString('hex')`. The randomness is made explicit:
`bytes` is the byte list drawn by `crypto.randomBytes`, so its length is the
`length` argument of the call, and the result hex-encodes it. -/
def getRandomString (bytes : List Nat) : Str :=
  bytes.flatMap byteToHex

/-- A character allowed in an app name by the script's sanitizing regex
`[a-zA-Z0-9-_]` (ASCII letters, digits, hyphen, underscore). -/
def isAllowedNameChar (c : Char) : Bool :=
  decide (('a' ≤ c ∧ c ≤ 'z') ∨ ('A' ≤ c ∧ c ≤ 'Z') ∨
    ('0' ≤ c ∧ c ≤ '9') ∨ c = '-' ∨ c = '_')

/-- One step of the script's `replace(/[^a-zA-Z0-9-_]/g, '-')`: a disallowed
character becomes a hyphen. -/
def sanitizeChar (c : Char) : Char :=
  if isAllowedNameChar c then c else '-'

/-- Node's `path.basename` (posix): strip trailing separators, then take the
part after the last separator; a path of only separators yields "/". -/
def basename (p : Str) : Str :=
  let q := (p.reverse.dropWhile (fun c => c = '/')).reverse
  if q = [] then (if p = [] then [] else ['/'])
  else (q.reverse.takeWhile (fun c => c ≠ '/')).reverse

/-- Lines 121-126 of the script: `APP_NAME` is the directory basename plus a
hyphen plus the random suffix, with every disallowed character replaced by a
hyphen. -/
def appName (rootDirectory suffix : Str) : Str :=
  (basename rootDirectory ++ "-".data ++ suffix).map sanitizeChar

/-- The allowed package-manager identifiers of the script's lookup table. -/
inductive PackageManager where
  | npm
  | pnpm
  | yarn
deriving DecidableEq

/-- Core part of a semver version as compared by `semver.lt` / `semver.gte`
on the probed version string. -/
structure SemVer where
  major : Nat
  minor : Nat
  patch : Nat
deriving DecidableEq

/-- Lexicographic strict order on version triples (`semver.lt`). -/
def semverLt (a b : SemVer) : Bool :=
  Nat.blt a.major b.major ||
    (a.major == b.major &&
      (Nat.blt a.minor b.minor ||
        (a.minor == b.minor && Nat.blt a.patch b.patch)))

/-- Lexicographic `semver.gte`, the negation of `semverLt` on the total
order of version triples. -/
def semverGte (a b : SemVer) : Bool :=
  !semverLt a b

/-- JS truthiness of the optional `args` parameter of the `run` functions:
`undefined` and the empty string are falsy. -/
def jsTruthyStr : Option Str → Bool
  | none => false
  | some s => !s.isEmpty

/-- A resolved package-manager profile: the `{exec, lockfile, run}` record of
the script's `getPackageManagerCommand`. -/
structure PMCommand where
  exec : Str
  lockfile : Str
  run : Str → Option Str → Str

/-- Lines 33-60 of the script. The pnpm version probe
(`getPackageManagerVersion('pnpm')`) is an external effect, so the probed
version is passed in as `pnpmVersion`. -/
def getPackageManagerCommand (pm : PackageManager) (pnpmVersion : SemVer) :
    PMCommand :=
  match pm with
  | .npm =>
    { exec := "npx".data
      lockfile := "package-lock.json".data
      run := fun script args =>
        "npm run ".data ++ script ++ " ".data ++
          (if jsTruthyStr args then "-- ".data ++ args.getD [] else []) }
  | .pnpm =>
    let includeDoubleDashBeforeArgs := semverLt pnpmVersion ⟨7, 0, 0⟩
    let useExec := semverGte pnpmVersion ⟨6, 13, 0⟩
    { exec := if useExec then "pnpm exec".data else "pnpx".data
      lockfile := "pnpm-lock.yaml".data
      run := fun script args =>
        if includeDoubleDashBeforeArgs then
          "pnpm run ".data ++ script ++ " ".data ++
            (if jsTruthyStr args then "-- ".data ++ args.getD [] else [])
        else
          "pnpm run ".data ++ script ++ " ".data ++ args.getD [] }
  | .yarn =>
    { exec := "yarn".data
      lockfile := "yarn.lock".data
      run := fun script args =>
        "yarn ".data ++ script ++ " ".data ++ args.getD [] }

/-- The invocation prologue each manager's `run` command starts with. -/
def managerRunPrologue : PackageManager → Str
  | .npm => "npm run".data
  | .pnpm => "pnpm run".data
  | .yarn => "yarn".data

/-- The loaded package manifest (`packageJson.content`): the fields the script
touches, plus the remaining top-level fields, which it leaves alone. -/
structure Manifest where
  name : Str
  devDependencies : List (String × String)
  scripts : List (String × Str)
  otherFields : List (String × String)
deriving DecidableEq

/-- Lines 77-82 of the script: keep the dependency entries whose key is not
listed as unused. -/
def removeUnusedDependencies (dependencies : List (String × String))
    (unusedDependencies : List String) : List (String × String) :=
  dependencies.filter (fun kv => !(unusedDependencies.contains kv.1))

/-- Lines 84-99 of the script: destructure `typecheck` and `validate` out of
the scripts map, set the name, drop `ts-node` from the dev dependencies when
untyped, and rebuild the scripts map — re-adding `typecheck` and `validate`
unchanged when typed, or only `validate` with its first " typecheck"
substring removed when untyped. -/
def updatePackageJson (APP_NAME : Str) (isTypeScript : Bool) (m : Manifest) :
    Manifest :=
  let typecheck := lookupKey "typecheck" m.scripts
  let validate := lookupKey "validate" m.scripts
  let scripts :=
    m.scripts.filter (fun kv => kv.1 != "typecheck" && kv.1 != "validate")
  { m with
    name := APP_NAME
    devDependencies :=
      if isTypeScript then m.devDependencies
      else removeUnusedDependencies m.devDependencies ["ts-node"]
    scripts :=
      if isTypeScript then
        scripts ++ [("typecheck", typecheck.getD []),
                    ("validate", validate.getD [])]
      else
        scripts ++
          [("validate", replaceFirst " typecheck".data [] (validate.getD []))] }

/-- A job node of the parsed deploy workflow: its `needs` list, plus the rest
of its YAML content, which the script leaves alone. -/
structure Job where
  needs : List String
  otherFields : List (String × String)
deriving DecidableEq

/-- The parsed `.github/workflows/deploy.yml` document. -/
structure DeployWorkflow where
  jobs : List (String × Job)
deriving DecidableEq

/-- Lines 11-18 of the script: `delete deployWorkflow.jobs.typecheck`, then
filter `'typecheck'` out of the `deploy` job's `needs` list. -/
def cleanupDeployWorkflow (deployWorkflow : DeployWorkflow) : DeployWorkflow :=
  let jobs := deployWorkflow.jobs.filter (fun kv => kv.1 != "typecheck")
  { jobs :=
      jobs.map (fun kv =>
        if kv.1 = "deploy" then
          (kv.1, { kv.2 with
                    needs := kv.2.needs.filter (fun need => need != "typecheck") })
        else kv) }

/-- Lines 20-27 of the script: point the vitest config at the untyped test
setup module (string pattern, hence first occurrence). -/
def cleanupVitestConfig (vitestConfig : Str) : Str :=
  replaceFirst "setup-test-env.ts".data "setup-test-env.js".data vitestConfig

/-- One file operation of the batched set `fileOperationPromises` awaited by
`Promise.all` at line 185 of the script, tagged by its target. -/
inductive FileOp where
  | writeFlyToml (doc : FlyToml)
  | writeReadme (content : Str)
  | writeDockerfile (content : Str)
  | savePackageJson (manifest : Manifest)
  | copyGitignore
  | rmDependabot
  | writeDeployWorkflow (doc : DeployWorkflow)
  | writeVitestConfig (content : Str)
deriving DecidableEq

/-- Recognizer for the manifest-save operation (`packageJson.save()`). -/
def FileOp.isSavePackageJson : FileOp → Bool
  | .savePackageJson _ => true
  | _ => false

/-- Recognizer for the deploy-workflow write emitted by
`cleanupDeployWorkflow`. -/
def FileOp.isWriteDeployWorkflow : FileOp → Bool
  | .writeDeployWorkflow _ => true
  | _ => false

/-- The values produced by the initial parallel read phase of `main` (lines
128-144), already parsed: the two `readFileIfNotTypeScript` reads resolve to
`undefined` (here `none`) when the typed variant is selected. -/
structure ReadValues where
  prodToml : FlyToml
  readme : Str
  dockerfile : Str
  deployWorkflow : Option DeployWorkflow
  vitestConfig : Option Str
  packageJson : Manifest
deriving DecidableEq

/-- Lines 146-185 of `main`: the transformations applied to the read values
and the batched list `fileOperationPromises` of write/copy/delete operations
they feed, in array order; the two cleanup writes are appended only when the
untyped variant is selected. `APP_NAME` is computed from the root directory
and the random bytes drawn for the suffix. -/
def mainOps (isTypeScript : Bool) (pm : PMCommand) (rootDirectory : Str)
    (suffixBytes : List Nat) (v : ReadValues) : List FileOp :=
  let APP_NAME := appName rootDirectory (getRandomString suffixBytes)
  let prodToml := patchProdToml v.prodToml APP_NAME
  let newReadmeContent := newReadme v.readme APP_NAME
  let newDockerfile :=
    if !pm.lockfile.isEmpty then
      jsReplaceGlobalRegex (escapeRegExp "ADD package.json".data)
        ("ADD package.json ".data ++ pm.lockfile) v.dockerfile
    else v.dockerfile
  let packageJson := updatePackageJson APP_NAME isTypeScript v.packageJson
  [FileOp.writeFlyToml prodToml,
   FileOp.writeReadme newReadmeContent,
   FileOp.writeDockerfile newDockerfile,
   FileOp.savePackageJson packageJson,
   FileOp.copyGitignore,
   FileOp.rmDependabot] ++
  (if !isTypeScript then
    [FileOp.writeDeployWorkflow
      (cleanupDeployWorkflow (v.deployWorkflow.getD { jobs := [] })),
     FileOp.writeVitestConfig (cleanupVitestConfig (v.vitestConfig.getD []))]
  else [])

/-- The outcome of the initial parallel read phase: each of the six reads of
the `Promise.all` at lines 128-144 either resolved or rejected. -/
structure ReadResults where
  prodToml : Except String FlyToml
  readme : Except String Str
  dockerfile : Except String Str
  deployWorkflow : Except String (Option DeployWorkflow)
  vitestConfig : Except String (Option Str)
  packageJson : Except String Manifest

/-- Whether an awaited promise resolved. -/
def exceptResolved {ε α : Type} : Except ε α → Bool
  | .ok _ => true
  | .error _ => false

/-- The `Promise.all` join of the read phase: it resolves with all six values
exactly when every read resolved, and rejects with a read's error as soon as
any read rejected. -/
def promiseAllReads (r : ReadResults) : Except String ReadValues :=
  match r.prodToml with
  | .error e => .error e
  | .ok a =>
    match r.readme with
    | .error e => .error e
    | .ok b =>
      match r.dockerfile with
      | .error e => .error e
      | .ok c =>
        match r.deployWorkflow with
        | .error e => .error e
        | .ok d =>
          match r.vitestConfig with
          | .error e => .error e
          | .ok f =>
            match r.packageJson with
            | .error e => .error e
            | .ok g => .ok ⟨a, b, c, d, f, g⟩

/-- Whether every read of the initial phase resolved. -/
def allReadsOk (r : ReadResults) : Bool :=
  exceptResolved r.prodToml && exceptResolved r.readme &&
  exceptResolved r.dockerfile && exceptResolved r.deployWorkflow &&
  exceptResolved r.vitestConfig && exceptResolved r.packageJson

/-- `main` from the read phase onward: awaiting the `Promise.all` of the reads
either rethrows the first read error — in which case the code that builds and
launches `fileOperationPromises` never runs — or proceeds to build the batched
operation list from the read values. -/
def mainRun (isTypeScript : Bool) (pm : PMCommand) (rootDirectory : Str)
    (suffixBytes : List Nat) (r : ReadResults) : Except String (List FileOp) :=
  match promiseAllReads r with
  | .error e => .error e
  | .ok v => .ok (mainOps isTypeScript pm rootDirectory suffixBytes v)

/-- A lowercase hexadecimal digit, the alphabet of Node's hex encoding. -/
def isHexDigit (c : Char) : Bool :=
  decide (('0' ≤ c ∧ c ≤ '9') ∨ ('a' ≤ c ∧ c ≤ 'f'))

/-- A concrete resolved npm profile, used to instantiate theorems. -/
def pmCommandEx : PMCommand := getPackageManagerCommand .npm ⟨0, 0, 0⟩

/-- A concrete read-values record with empty contents, used to instantiate
theorems about the operation batch. -/
def readValuesEx : ReadValues :=
  { prodToml := { app := [], otherFields := [] }
    readme := []
    dockerfile := []
    deployWorkflow := none
    vitestConfig := none
    packageJson := { name := [], devDependencies := [], scripts := [], otherFields := [] } }

/-- A manifest whose `validate` script is exactly "typecheck": legal input to
`updatePackageJson`, with both the `typecheck` and `validate` script keys. -/
def manifestCex : Manifest :=
  { name := []
    devDependencies := [("ts-node", "10.9.1")]
    scripts := [("typecheck", "tsc".data), ("validate", "typecheck".data)]
    otherFields := [] }

/-- A manifest shaped like the template's: `validate` mentions ` typecheck`
once, with its leading space. -/
def manifestEx : Manifest :=
  { name := []
    devDependencies := [("ts-node", "10.9.1")]
    scripts := [("lint", "eslint .".data),
                ("typecheck", "tsc".data),
                ("validate", "run-s lint typecheck".data)]
    otherFields := [] }

/-- A concrete deploy workflow with a `typecheck` job and a `deploy` job that
needs it. -/
def deployWorkflowEx : DeployWorkflow :=
  { jobs := [("typecheck", { needs := [], otherFields := [] }),
             ("deploy", { needs := ["typecheck", "build"], otherFields := [] })] }

/-- A read phase in which the README read rejected and every other read
resolved. -/
def readResultsEx : ReadResults :=
  { prodToml := .ok { app := [], otherFields := [] }
    readme := .error "ENOENT"
    dockerfile := .ok []
    deployWorkflow := .ok none
    vitestConfig := .ok none
    packageJson :=
      .ok { name := [], devDependencies := [], scripts := [], otherFields := [] } }

theorem lookupKey_append {α : Type} (k : String) (l₁ l₂ : List (String × α)) :
    lookupKey k (l₁ ++ l₂) =
      match lookupKey k l₁ with
      | some v => some v
      | none => lookupKey k l₂ := by
  induction l₁ with
  | nil => simp [lookupKey]
  | cons kv rest ih =>
    obtain ⟨k', v'⟩ := kv
    by_cases h : k' = k
    · simp [lookupKey, h]
    · simp [lookupKey, h, ih]

theorem lookupKey_filter_none {α : Type} (k : String) (l : List (String × α))
    (p : String × α → Bool) (hp : ∀ kv, kv.1 = k → p kv = false) :
    lookupKey k (l.filter p) = none := by
  induction l with
  | nil => simp [lookupKey]
  | cons kv rest ih =>
    obtain ⟨k', v'⟩ := kv
    by_cases hk : k' = k
    · have := hp (k', v') hk
      simp [List.filter, this, ih]
    · cases hpv : p (k', v') <;> simp [List.filter, hpv, lookupKey, hk, ih]

theorem interpEscaped_escapeRegExp (s : Str) :
    interpEscaped (escapeRegExp s) = some s := by
  induction s with
  | nil => rfl
  | cons c cs ih =>
    by_cases h : isRegexMeta c = true
    · rw [escapeRegExp, if_pos h, List.cons_append, List.cons_append,
        List.nil_append, interpEscaped.eq_def]
      simp [ih]
    · have hc : ¬ c = '\\' := by
        intro e; rw [e] at h; exact h (by decide)
      rw [escapeRegExp, if_neg h, List.cons_append, List.nil_append,
        interpEscaped.eq_def]
      simp [h, hc, ih]

theorem sanitizeChar_allowed (c : Char) :
    isAllowedNameChar (sanitizeChar c) = true := by
  by_cases h : isAllowedNameChar c = true
  · rwa [sanitizeChar, if_pos h]
  · rw [sanitizeChar, if_neg h]
    decide

/-- C3: for every root directory path — whatever punctuation its final
segment contains — and every random suffix, the generated application name
consists only of ASCII letters, digits, hyphens and underscores, every other
character having been replaced by a hyphen by the sanitizing step. -/
theorem appName_chars_allowed (rootDirectory suffix : Str) :
    (appName rootDirectory suffix).all isAllowedNameChar = true := by
  rw [appName, List.all_map]
  apply List.all_eq_true.mpr
  intro c _
  exact sanitizeChar_allowed c

/-- C4: the rewritten README equals the original with every occurrence of the
placeholder token replaced by the generated name, the escaped pattern matching
the placeholder literally: the regex-based computation coincides with a plain
literal replace-all of `REPLACER`, for every README text and every name. -/
theorem newReadme_literal_replace_all (readme APP_NAME : Str) :
    newReadme readme APP_NAME = replaceAll REPLACER APP_NAME readme := by
  rw [newReadme, jsReplaceGlobalRegex, interpEscaped_escapeRegExp]

/-- C5: patching a TOML document whose `app` field is exactly the placeholder
with the name "foo-ab12" yields `app = "foo-ab12"` and leaves every other
field of the document unchanged. -/
theorem patchProdToml_frame (otherFields : List (String × String)) :
    patchProdToml
        { app := "symphonic-stack-template".data, otherFields := otherFields }
        "foo-ab12".data =
      { app := "foo-ab12".data, otherFields := otherFields } := by
  rfl

/-- C6: for every allowed package-manager identifier and every probed pnpm
version, the resolved profile's `run` function yields a command that starts
with that manager's invocation prologue ("npm run", "pnpm run", "yarn"). -/
theorem run_starts_with_manager (pm : PackageManager) (pnpmVersion : SemVer)
    (script : Str) (args : Option Str) :
    ∃ t, managerRunPrologue pm ++ t =
      (getPackageManagerCommand pm pnpmVersion).run script args := by
  cases pm
  · exact ⟨_, rfl⟩
  · dsimp only [getPackageManagerCommand, managerRunPrologue]
    split
    · exact ⟨_, rfl⟩
    · exact ⟨_, rfl⟩
  · exact ⟨_, rfl⟩

/-- C7: for the pnpm profile under any probed version and any nonempty
argument string, the `run` command inserts "--" before the arguments exactly
when the version is strictly below 7.0.0 (its output is fully characterized
by that comparison), and the `exec` field is "pnpm exec" exactly when the
version is at least 6.13.0 and "pnpx" otherwise. -/
theorem pnpm_version_conventions (pnpmVersion : SemVer) (script a : Str)
    (ha : a ≠ []) :
    (getPackageManagerCommand .pnpm pnpmVersion).run script (some a) =
      "pnpm run ".data ++ script ++ " ".data ++
        (if semverLt pnpmVersion ⟨7, 0, 0⟩ then "-- ".data ++ a else a) ∧
    (getPackageManagerCommand .pnpm pnpmVersion).exec =
      (if semverGte pnpmVersion ⟨6, 13, 0⟩ then "pnpm exec".data
       else "pnpx".data) := by
  have ht : jsTruthyStr (some a) = true := by
    cases a with
    | nil => exact absurd rfl ha
    | cons c cs => rfl
  refine ⟨?_, rfl⟩
  dsimp only [getPackageManagerCommand]
  split <;> simp [ht]

/-- Witness for C7 at pnpm version 6.14.0, the `format --loglevel warn`
invocation `main` performs. -/
theorem pnpm_version_conventions_w :
    (getPackageManagerCommand .pnpm ⟨6, 14, 0⟩).run "format".data
        (some "--loglevel warn".data) =
      "pnpm run ".data ++ "format".data ++ " ".data ++
        (if semverLt ⟨6, 14, 0⟩ ⟨7, 0, 0⟩ then "-- ".data ++ "--loglevel warn".data
         else "--loglevel warn".data) ∧
    (getPackageManagerCommand .pnpm ⟨6, 14, 0⟩).exec =
      (if semverGte ⟨6, 14, 0⟩ ⟨6, 13, 0⟩ then "pnpm exec".data
       else "pnpx".data) :=
  pnpm_version_conventions ⟨6, 14, 0⟩ "format".data "--loglevel warn".data
    (by decide)

/-- Counterexample to C1 as stated: for the manifest `manifestCex`, whose
scripts map contains both `typecheck` and `validate` with
`validate = "typecheck"`, selecting the untyped variant leaves a `validate`
script that still CONTAINS the substring "typecheck" — the code only deletes
the first occurrence of " typecheck" with a leading space, which does not
occur here. The claim asserts the opposite (that the substring is absent). -/
theorem updatePackageJson_validate_keeps_typecheck :
    hasSubstr "typecheck".data
        ((lookupKey "validate"
          (updatePackageJson "my-app".data false manifestCex).scripts).getD [])
      = true := by
  decide

/-- C1 as amended: for every manifest whose scripts map contains `typecheck`
and `validate`, the untyped variant removes the `typecheck` key and rewrites
`validate` to the original with its first occurrence of " typecheck"
(with the leading space) deleted — which need not erase every occurrence of
"typecheck" — while the typed variant preserves both entries unchanged. -/
theorem updatePackageJson_scripts (APP_NAME : Str) (m : Manifest) (tc v : Str)
    (htc : lookupKey "typecheck" m.scripts = some tc)
    (hv : lookupKey "validate" m.scripts = some v) :
    lookupKey "typecheck" (updatePackageJson APP_NAME false m).scripts = none ∧
    lookupKey "validate" (updatePackageJson APP_NAME false m).scripts =
      some (replaceFirst " typecheck".data [] v) ∧
    lookupKey "typecheck" (updatePackageJson APP_NAME true m).scripts =
      some tc ∧
    lookupKey "validate" (updatePackageJson APP_NAME true m).scripts =
      some v := by
  have h1 : lookupKey "typecheck"
      (m.scripts.filter
        (fun kv => kv.1 != "typecheck" && kv.1 != "validate")) = none := by
    apply lookupKey_filter_none
    intro kv hk
    simp [hk]
  have h2 : lookupKey "validate"
      (m.scripts.filter
        (fun kv => kv.1 != "typecheck" && kv.1 != "validate")) = none := by
    apply lookupKey_filter_none
    intro kv hk
    simp [hk]
  refine ⟨?_, ?_, ?_, ?_⟩ <;>
    simp [updatePackageJson, lookupKey_append, h1, h2, lookupKey, htc, hv]

/-- Witness for the amended C1 on a manifest shaped like the template's. -/
theorem updatePackageJson_scripts_w :
    lookupKey "typecheck"
      (updatePackageJson "my-app".data false manifestEx).scripts = none ∧
    lookupKey "validate"
      (updatePackageJson "my-app".data false manifestEx).scripts =
        some "run-s lint".data ∧
    lookupKey "typecheck"
      (updatePackageJson "my-app".data true manifestEx).scripts =
        some "tsc".data ∧
    lookupKey "validate"
      (updatePackageJson "my-app".data true manifestEx).scripts =
        some "run-s lint typecheck".data :=
  updatePackageJson_scripts "my-app".data manifestEx "tsc".data
    "run-s lint typecheck".data rfl rfl

theorem lookupKey_map_keyfix_none {α : Type} (k : String)
    (l : List (String × α)) (f : String × α → String × α)
    (hf : ∀ kv, (f kv).1 = kv.1) (h : lookupKey k l = none) :
    lookupKey k (l.map f) = none := by
  induction l with
  | nil => rfl
  | cons kv rest ih =>
    obtain ⟨k', v'⟩ := kv
    by_cases hk : k' = k
    · rw [lookupKey, if_pos hk] at h
      exact absurd h (by simp)
    · rw [lookupKey, if_neg hk] at h
      rcases hF : f (k', v') with ⟨fk, fv⟩
      have hfk : fk = k' := by
        have := hf (k', v')
        rw [hF] at this
        exact this
      rw [List.map_cons, hF, lookupKey, hfk, if_neg hk]
      exact ih h

theorem lookup_deploy_map_filters_needs (l : List (String × Job)) (d' : Job)
    (h : lookupKey "deploy"
      (l.map (fun kv =>
        if kv.1 = "deploy" then
          (kv.1, { kv.2 with
            needs := kv.2.needs.filter (fun need => need != "typecheck") })
        else kv)) = some d') :
    "typecheck" ∉ d'.needs := by
  induction l with
  | nil => simp [lookupKey] at h
  | cons kv rest ih =>
    obtain ⟨k', j⟩ := kv
    by_cases hk : k' = "deploy"
    · subst hk
      rw [List.map_cons, if_pos rfl, lookupKey, if_pos rfl] at h
      obtain rfl : ({ j with
          needs := j.needs.filter (fun need => need != "typecheck") } : Job)
          = d' := Option.some.inj h
      intro hm
      have := List.of_mem_filter hm
      simp at this
    · rw [List.map_cons, if_neg hk, lookupKey, if_neg hk] at h
      exact ih h

/-- C2: for every workflow document with a `typecheck` job and a `deploy` job,
`cleanupDeployWorkflow` yields a document whose jobs map has no `typecheck`
key and whose `deploy` job (if looked up) has no "typecheck" entry in its
`needs` list; moreover the batched operation list of `main` contains the
deploy-workflow write exactly when the untyped variant is selected. -/
theorem cleanupDeployWorkflow_removes_typecheck (w : DeployWorkflow) (d : Job)
    (isTypeScript : Bool) (pm : PMCommand) (rootDirectory : Str)
    (suffixBytes : List Nat) (v : ReadValues)
    (htc : (lookupKey "typecheck" w.jobs).isSome = true)
    (hd : lookupKey "deploy" w.jobs = some d) :
    lookupKey "typecheck" (cleanupDeployWorkflow w).jobs = none ∧
    (∀ d', lookupKey "deploy" (cleanupDeployWorkflow w).jobs = some d' →
      "typecheck" ∉ d'.needs) ∧
    (mainOps isTypeScript pm rootDirectory suffixBytes v).any
        FileOp.isWriteDeployWorkflow = !isTypeScript := by
  refine ⟨?_, ?_, ?_⟩
  · apply lookupKey_map_keyfix_none
    · intro kv
      by_cases hk : kv.1 = "deploy" <;> simp [hk]
    · apply lookupKey_filter_none
      intro kv hk
      simp [hk]
  · intro d' hd'
    exact lookup_deploy_map_filters_needs _ d' hd'
  · cases isTypeScript <;>
      simp [mainOps, FileOp.isWriteDeployWorkflow, FileOp.isSavePackageJson]

/-- Witness for C2 on a concrete workflow whose `deploy` job needs
`typecheck`, with the untyped variant selected. -/
theorem cleanupDeployWorkflow_removes_typecheck_w :
    lookupKey "typecheck" (cleanupDeployWorkflow deployWorkflowEx).jobs
      = none ∧
    (∀ d', lookupKey "deploy" (cleanupDeployWorkflow deployWorkflowEx).jobs
        = some d' → "typecheck" ∉ d'.needs) ∧
    (mainOps false pmCommandEx "app".data [] readValuesEx).any
        FileOp.isWriteDeployWorkflow = !false :=
  cleanupDeployWorkflow_removes_typecheck deployWorkflowEx
    { needs := ["typecheck", "build"], otherFields := [] }
    false pmCommandEx "app".data [] readValuesEx rfl rfl

/-- C8: if any of the six reads of the initial parallel phase fails, the
pipeline's result is the propagated error: the batched list of write, copy
and delete operations is never produced, so none of them is performed and the
filesystem is left unchanged by the tool. -/
theorem mainRun_read_failure_no_ops (isTypeScript : Bool) (pm : PMCommand)
    (rootDirectory : Str) (suffixBytes : List Nat) (r : ReadResults)
    (h : allReadsOk r = false) :
    exceptResolved (mainRun isTypeScript pm rootDirectory suffixBytes r)
      = false := by
  obtain ⟨p, rm, dk, dw, vc, pj⟩ := r
  cases p <;> cases rm <;> cases dk <;> cases dw <;> cases vc <;> cases pj <;>
    simp_all [allReadsOk, exceptResolved, mainRun, promiseAllReads]

/-- Witness for C8: the README read rejected, so the run resolves to the
error and produces no operation list. -/
theorem mainRun_read_failure_no_ops_w :
    allReadsOk readResultsEx = false ∧
    exceptResolved
        (mainRun true pmCommandEx "app".data [] readResultsEx) = false :=
  ⟨rfl, mainRun_read_failure_no_ops true pmCommandEx "app".data []
    readResultsEx rfl⟩

/-- Counterexample to C9 as stated: `[171, 205]` is a possible outcome of the
`crypto.randomBytes(2)` call at line 122 (`getRandomString(2)` passes 2 as the
BYTE count), and its hex encoding has 4 characters, not the 2 the claim
asserts. -/
theorem getRandomString_suffix_not_two :
    ¬ ((getRandomString [171, 205]).length = 2) := by
  decide

theorem hexChar_isHexDigit (n : Nat) (h : n < 16) :
    isHexDigit (hexChar n) = true := by
  interval_cases n <;> decide

/-- C9 as amended: the random suffix consists of exactly 4 hexadecimal
characters, i.e. 2 bytes of randomness (`crypto.randomBytes(2)` draws 2
bytes; hex encoding yields two characters per byte), for every run. -/
theorem getRandomString_suffix_four_hex (bytes : List Nat)
    (hlen : bytes.length = 2) (hrange : ∀ b ∈ bytes, b < 256) :
    (getRandomString bytes).length = 4 ∧
    (getRandomString bytes).all isHexDigit = true := by
  match bytes, hlen with
  | [x, y], _ =>
    have hx : x < 256 := hrange x (by simp)
    have hy : y < 256 := hrange y (by simp)
    refine ⟨rfl, ?_⟩
    have h1 : x / 16 < 16 := by omega
    have h2 : x % 16 < 16 := by omega
    have h3 : y / 16 < 16 := by omega
    have h4 : y % 16 < 16 := by omega
    simp [getRandomString, byteToHex, hexChar_isHexDigit _ h1,
      hexChar_isHexDigit _ h2, hexChar_isHexDigit _ h3,
      hexChar_isHexDigit _ h4]

/-- Witness for the amended C9 on the byte draw `[171, 205]`. -/
theorem getRandomString_suffix_four_hex_w :
    (getRandomString [171, 205]).length = 4 ∧
    (getRandomString [171, 205]).all isHexDigit = true :=
  getRandomString_suffix_four_hex [171, 205] rfl (by decide)

/-- Counterexample to C10 as stated: in a concrete run the manifest-save
operation (`packageJson.save()`) IS an element of the batched set
`fileOperationPromises` awaited by the single `Promise.all`, contradicting
the claim that it is performed outside the main batched set. -/
theorem savePackageJson_outside_batch_cex :
    ¬ ((mainOps true pmCommandEx "app".data [] readValuesEx).any
        FileOp.isSavePackageJson = false) := by
  decide

/-- C10 as amended: the package-manifest write is one of the operations of
the main batched set of parallel write/copy/delete operations, in every
run. -/
theorem savePackageJson_in_batch (isTypeScript : Bool) (pm : PMCommand)
    (rootDirectory : Str) (suffixBytes : List Nat) (v : ReadValues) :
    (mainOps isTypeScript pm rootDirectory suffixBytes v).any
        FileOp.isSavePackageJson = true := by
  cases isTypeScript <;> simp [mainOps, FileOp.isSavePackageJson]
